import Mathlib

/-!
Verification of the offset/validity invariant checker and the container
decoding pipeline of a columnar in-memory data engine.

The checker functions (`check_offsets_minimal`, `check_offsets`,
`try_check_offsets`, `check_offsets_and_utf8`, `try_check_offsets_and_utf8`)
are embedded from `src/array/specification.rs`.  The generic offset element
type `O : Offset` is instantiated at i32/i64 in the engine; its trait
implementation is not part of the sources verified here, and the design
document treats offsets as indices delimiting elements inside a flat values
buffer, so offsets are modelled as natural numbers and `to_usize` as the
identity conversion.  A Rust panic is modelled as `Option.none`; the
`Result`-returning functions return `Except String Unit` carrying the error
message.
-/

namespace Arrow2

/-- Modelled from the spec: `Offset::to_usize` (the `Offset` trait lives in
`src/types`, outside the verified sources); offsets are indices into the
values buffer, so the conversion is the identity on natural numbers. -/
def toUsize (o : Nat) : Nat := o

/-- `<[u8]>::is_ascii`: every byte is below `0x80`. -/
def isAscii (values : List Nat) : Bool := values.all (fun b => decide (b < 128))

/-- `offsets.windows(2).any(|window| window[0] > window[1])` from
`try_check_offsets`. -/
def hasDecreasing : List Nat → Bool
  | o1 :: o2 :: rest => decide (o2 < o1) || hasDecreasing (o2 :: rest)
  | _ => false

/-- `offsets.last().map_or(false, |last| last.to_usize() > values_len)` from
`try_check_offsets`. -/
def lastExceeds (offsets : List Nat) (values_len : Nat) : Bool :=
  match offsets.getLast? with
  | some last => decide (values_len < toUsize last)
  | none => false

/-- `try_check_offsets` from `src/array/specification.rs`: monotonicity over
all adjacent pairs, then the bound of the last offset against `values_len`. -/
def try_check_offsets (offsets : List Nat) (values_len : Nat) :
    Except String Unit :=
  if hasDecreasing offsets then
    Except.error "offsets must be monotonically increasing"
  else if lastExceeds offsets values_len then
    Except.error "offsets must not exceed values length"
  else
    Except.ok ()

/-- `check_offsets` from `src/array/specification.rs`:
`try_check_offsets(offsets, values_len).unwrap()`; the panic of `unwrap` on
an error is modelled as `none`. -/
def check_offsets (offsets : List Nat) (values_len : Nat) : Option Unit :=
  (try_check_offsets offsets values_len).toOption

/-- `check_offsets_minimal` from `src/array/specification.rs`: asserts the
offsets are non-empty and that the last offset equals `values_len`, and
returns `offsets.len() - 1`; a failed assertion (panic) is `none`. -/
def check_offsets_minimal (offsets : List Nat) (values_len : Nat) :
    Option Nat :=
  match offsets.getLast? with
  | none => none
  | some last =>
      if values_len = toUsize last then some (offsets.length - 1) else none

/-- One iteration of the window loop of `try_check_offsets_and_utf8`:
monotonicity of the pair, the bound against `values.len()`, the short-ASCII
fast path, and the UTF-8 validation of the delimited slice. -/
def windowCheck (values : List Nat) (validUtf8 : List Nat → Bool)
    (o1 o2 : Nat) : Except String Unit :=
  let start := toUsize o1
  let stop := toUsize o2
  if stop < start then
    Except.error "offsets must be monotonically increasing"
  else if values.length < stop then
    Except.error "offsets must not exceed values length"
  else
    let slice := (values.drop start).take (stop - start)
    if slice.length < 64 && isAscii slice then Except.ok ()
    else if validUtf8 slice then Except.ok ()
    else Except.error "invalid utf8"

/-- The `for window in offsets.windows(2)` loop of
`try_check_offsets_and_utf8`, returning the first failing window's error. -/
def windowsLoop (values : List Nat) (validUtf8 : List Nat → Bool) :
    List Nat → Except String Unit
  | o1 :: o2 :: rest =>
      match windowCheck values validUtf8 o1 o2 with
      | Except.ok () => windowsLoop values validUtf8 (o2 :: rest)
      | Except.error e => Except.error e
  | _ => Except.ok ()

/-- Classification of a UTF-8 leading byte per Table 3-7 of the Unicode
standard (shortest forms only, no surrogates, up to U+10FFFF): `none` for an
invalid leading byte, otherwise `(k, lo, hi)` where `k` continuation bytes
follow and the first of them must lie in `lo..=hi` (subsequent continuation
bytes always lie in `0x80..=0xBF`). -/
def leadByte (b : Nat) : Option (Nat × Nat × Nat) :=
  if b ≤ 127 then some (0, 0, 0)
  else if 194 ≤ b ∧ b ≤ 223 then some (1, 128, 191)
  else if b = 224 then some (2, 160, 191)
  else if (225 ≤ b ∧ b ≤ 236) ∨ b = 238 ∨ b = 239 then some (2, 128, 191)
  else if b = 237 then some (2, 128, 159)
  else if b = 240 then some (3, 144, 191)
  else if 241 ≤ b ∧ b ≤ 243 then some (3, 128, 191)
  else if b = 244 then some (3, 128, 143)
  else none

/-- The UTF-8 acceptance automaton: `k` is the number of still-expected
continuation bytes and `lo..=hi` the admissible range of the next one. -/
def validUtf8Aux : List Nat → Nat → Nat → Nat → Bool
  | [], 0, _, _ => true
  | [], _ + 1, _, _ => false
  | b :: rest, 0, _, _ =>
      match leadByte b with
      | none => false
      | some (k, lo, hi) => validUtf8Aux rest k lo hi
  | b :: rest, k + 1, lo, hi =>
      if lo ≤ b ∧ b ≤ hi then validUtf8Aux rest k 128 191 else false

/-- UTF-8 validity of a byte sequence (`simdutf8::basic::from_utf8`, an
external dependency implementing standard UTF-8 validation). -/
def validUtf8 (l : List Nat) : Bool := validUtf8Aux l 0 0 0

/-- `try_check_offsets_and_utf8` from `src/array/specification.rs`: an
all-ASCII values buffer short-circuits to `try_check_offsets`; otherwise the
window loop validates each pair and each delimited slice. -/
def try_check_offsets_and_utf8 (offsets : List Nat) (values : List Nat) :
    Except String Unit :=
  if isAscii values then try_check_offsets offsets values.length
  else windowsLoop values validUtf8 offsets

/-- `check_offsets_and_utf8` from `src/array/specification.rs`:
`try_check_offsets_and_utf8(offsets, values).unwrap()`. -/
def check_offsets_and_utf8 (offsets : List Nat) (values : List Nat) :
    Option Unit :=
  (try_check_offsets_and_utf8 offsets values).toOption

/-- `Result::is_err` for the checker results. -/
def isError (r : Except String Unit) : Bool :=
  match r with
  | Except.ok _ => false
  | Except.error _ => true

/-! ## The engine's type system and the container decoding pipeline

The array catalog (`src/datatypes`, `src/array/mod.rs`) and the container
reader (`src/io/avro/read`) are exercised only through their tests in the
verified sources, so the following definitions are modelled from the design
document.  Field names, enum symbols and buffer contents are byte lists
(the UTF-8 bytes of the corresponding text). -/

/-- `UnionMode` of the engine's union data type. -/
inductive UnionMode where
  | Sparse
  | Dense

/-- Modelled from the spec: the engine's `DataType` tagged variant tree
(`src/datatypes` is not among the verified sources): primitives, logical
date wrapper, variable-length binary/utf8, list-of-field,
dictionary-of-keys/values, and union over child fields (each child being
name, type, nullability). -/
inductive DataType where
  | int32
  | int64
  | float64
  | boolean
  | utf8
  | binary
  | date32
  | list (itemName : List Nat) (item : DataType) (itemNullable : Bool)
  | dictionary (keys : DataType) (values : DataType) (sorted : Bool)
  | union (fields : List (List Nat × DataType × Bool)) (ids : Option (List Int))
      (mode : UnionMode)

/-- Modelled from the spec: a named, independently nullable schema field. -/
structure Field where
  name : List Nat
  dataType : DataType
  isNullable : Bool

/-- Modelled from the spec: the null count reported by
`new_null_array(data_type, length)` (`src/array/mod.rs` is not among the
verified sources, only its test): `new_null_array` produces an array of
`length` nulls, whose null count is `length`, except that union logical
types are non-nullable by construction and define their null count as
structurally `0` regardless of child nullability. -/
def newNullArrayNullCount (dt : DataType) (length : Nat) : Nat :=
  match dt with
  | DataType.union _ _ _ => 0
  | _ => length

/-! ### Binary primitives of the container format (modelled from the spec):
zig-zag variable-length integers, length-prefixed byte strings. -/

/-- Zig-zag mapping of a signed integer to a non-negative code. -/
def zigzagEncode (i : Int) : Nat :=
  if i < 0 then 2 * (-i).toNat - 1 else 2 * i.toNat

/-- Inverse of `zigzagEncode`. -/
def zigzagDecode (n : Nat) : Int :=
  if n % 2 = 0 then (n / 2 : Nat) else -((n / 2 : Nat) : Int) - 1

/-- Little-endian base-128 rendering with continuation bits; the fuel is
structural and `n + 1` steps always suffice. -/
def varintEncodeAux : Nat → Nat → List Nat
  | 0, _ => []
  | fuel + 1, n =>
      if n < 128 then [n]
      else (n % 128 + 128) :: varintEncodeAux fuel (n / 128)

/-- Variable-length encoding of a non-negative code. -/
def varintEncode (n : Nat) : List Nat := varintEncodeAux (n + 1) n

/-- Reads a variable-length code: accumulates 7-bit groups until a byte
without the continuation bit; fails on truncation. -/
def varintDecodeAux : List Nat → Nat → Nat → Option (Nat × List Nat)
  | [], _, _ => none
  | b :: rest, shiftVal, acc =>
      if b < 128 then some (acc + b * shiftVal, rest)
      else varintDecodeAux rest (shiftVal * 128) (acc + (b - 128) * shiftVal)

/-- `long`/`int` encoding: zig-zag then variable-length. -/
def encodeLong (i : Int) : List Nat := varintEncode (zigzagEncode i)

/-- `long`/`int` decoding: variable-length then zig-zag. -/
def readLong (l : List Nat) : Option (Int × List Nat) :=
  (varintDecodeAux l 1 0).map (fun p => (zigzagDecode p.1, p.2))

/-- Reads exactly `k` bytes, failing with fewer available. -/
def readN : Nat → List Nat → Option (List Nat × List Nat)
  | 0, l => some ([], l)
  | _ + 1, [] => none
  | k + 1, b :: rest => (readN k rest).map (fun p => (b :: p.1, p.2))

/-- All-or-nothing collection of optional values. -/
def seqOpt {α : Type} : List (Option α) → Option (List α)
  | [] => some []
  | none :: _ => none
  | some a :: rest => (seqOpt rest).map (fun l => a :: l)

/-! ### The external self-describing schema and its resolution
(modelled from the spec, §4.3). -/

/-- Modelled from the spec: the external schema's recursive type language,
restricted to the constructs the design document demonstrates: primitives,
the logical date over a 32-bit integer, the 2-branch `null | T` union
convention, arrays (with the item's record name) and enums over ordered
symbol lists. -/
inductive AvroSchema where
  | along
  | aint
  | adouble
  | aboolean
  | abytes
  | astring
  | dateInt
  | nullUnion (t : AvroSchema)
  | array (itemName : List Nat) (item : AvroSchema)
  | enumType (symbols : List (List Nat))

/-- Modelled from the spec: the schema resolver, mapping an external type
to an internal `DataType` plus the field nullability: primitives 1:1, date
to `Date32`, `null | T` to nullable `T`, arrays to `List`, enums to a
dictionary with signed 32-bit keys over the symbol strings. -/
def resolveAvroType : AvroSchema → Option (DataType × Bool)
  | AvroSchema.along => some (DataType.int64, false)
  | AvroSchema.aint => some (DataType.int32, false)
  | AvroSchema.adouble => some (DataType.float64, false)
  | AvroSchema.aboolean => some (DataType.boolean, false)
  | AvroSchema.abytes => some (DataType.binary, false)
  | AvroSchema.astring => some (DataType.utf8, false)
  | AvroSchema.dateInt => some (DataType.date32, false)
  | AvroSchema.nullUnion t =>
      (resolveAvroType t).map (fun p => (p.1, true))
  | AvroSchema.array n t =>
      (resolveAvroType t).map (fun p => (DataType.list n p.1 p.2, false))
  | AvroSchema.enumType _ =>
      some (DataType.dictionary DataType.int32 DataType.utf8 false, false)

/-- Modelled from the spec: resolving every named field of the external
record schema into the internal `Schema` (ordered field list). -/
def resolveFields : List (List Nat × AvroSchema) → Option (List Field)
  | [] => some []
  | (n, t) :: rest =>
      match resolveAvroType t with
      | none => none
      | some (dt, nullable) =>
          (resolveFields rest).map (fun fs => Field.mk n dt nullable :: fs)

/-! ### Decoded logical values

The engine compares decoded arrays by logical value (data type plus the
per-element value, a null mask entry standing for `lnull`), so decoded
columns are modelled by their logical contents. -/

/-- A logical cell value of a decoded column. -/
inductive LogicalValue where
  | lint (v : Int)
  | llong (v : Int)
  | ldouble (leBytes : List Nat)
  | lbool (b : Bool)
  | lbytes (bs : List Nat)
  | lnull
  | llist (items : List LogicalValue)

/-- A decoded column: its resolved data type and its logical contents. -/
structure ColumnModel where
  dataType : DataType
  values : List LogicalValue

/-! ### The record decoder (modelled from the spec, §4.6): decodes one
value per field according to the external schema, directly into the logical
cell the corresponding column builder would hold. -/

/-- Modelled from the spec: exactly `k` consecutive items, each read by the
given single-value decoder. -/
def decodeItems (dec : List Nat → Option (LogicalValue × List Nat)) :
    Nat → List Nat → Option (List LogicalValue × List Nat)
  | 0, input => some ([], input)
  | k + 1, input =>
      (dec input).bind (fun p =>
        (decodeItems dec k p.2).map (fun q => (p.1 :: q.1, q.2)))

/-- Modelled from the spec: the zero-count-terminated sequence of
`(count, items)` groups of an array value. -/
def decodeBlocks (dec : List Nat → Option (LogicalValue × List Nat)) :
    Nat → List Nat → Option (List LogicalValue × List Nat)
  | 0, _ => none
  | fuel + 1, input =>
      (readLong input).bind (fun p =>
        if p.1 = 0 then some ([], p.2)
        else if p.1 < 0 then none
        else
          (decodeItems dec p.1.toNat p.2).bind (fun q =>
            (decodeBlocks dec fuel q.2).map (fun r => (q.1 ++ r.1, r.2))))

/-- Modelled from the spec: one value of external type `sch`: integers as
zig-zag varints, strings/bytes length-prefixed, booleans one byte
zero/nonzero, doubles fixed 8-byte little-endian, `null | T` as a zig-zag
branch index then the branch value, arrays as zero-terminated counted
blocks, enums as a zig-zag index into the symbol list (out of range
fails).  The fuel argument is structural; it only bounds recursion depth. -/
def decodeValue : Nat → AvroSchema → List Nat → Option (LogicalValue × List Nat)
  | 0, _, _ => none
  | _ + 1, AvroSchema.along, input =>
      (readLong input).map (fun p => (LogicalValue.llong p.1, p.2))
  | _ + 1, AvroSchema.aint, input =>
      (readLong input).map (fun p => (LogicalValue.lint p.1, p.2))
  | _ + 1, AvroSchema.dateInt, input =>
      (readLong input).map (fun p => (LogicalValue.lint p.1, p.2))
  | _ + 1, AvroSchema.adouble, input =>
      (readN 8 input).map (fun p => (LogicalValue.ldouble p.1, p.2))
  | _ + 1, AvroSchema.aboolean, input =>
      match input with
      | [] => none
      | b :: rest => some (LogicalValue.lbool (decide (b ≠ 0)), rest)
  | _ + 1, AvroSchema.abytes, input =>
      (readLong input).bind (fun p =>
        (readN p.1.toNat p.2).map (fun q => (LogicalValue.lbytes q.1, q.2)))
  | _ + 1, AvroSchema.astring, input =>
      (readLong input).bind (fun p =>
        (readN p.1.toNat p.2).map (fun q => (LogicalValue.lbytes q.1, q.2)))
  | fuel + 1, AvroSchema.nullUnion t, input =>
      (readLong input).bind (fun p =>
        if p.1 = 0 then some (LogicalValue.lnull, p.2)
        else if p.1 = 1 then
          (decodeValue fuel t p.2).map (fun q => (q.1, q.2))
        else none)
  | fuel + 1, AvroSchema.array _ t, input =>
      (decodeBlocks (decodeValue fuel t) fuel input).map
        (fun p => (LogicalValue.llist p.1, p.2))
  | _ + 1, AvroSchema.enumType symbols, input =>
      (readLong input).bind (fun p =>
        if h : p.1.toNat < symbols.length then
          if 0 ≤ p.1 then
            some (LogicalValue.lbytes (symbols.get ⟨p.1.toNat, h⟩), p.2)
          else none
        else none)

/-- Modelled from the spec: one record, field by field in schema order. -/
def decodeRecord (fuel : Nat) :
    List (List Nat × AvroSchema) → List Nat → Option (List LogicalValue × List Nat)
  | [], input => some ([], input)
  | (_, t) :: fields, input =>
      (decodeValue fuel t input).bind (fun p =>
        (decodeRecord fuel fields p.2).map (fun q => (p.1 :: q.1, q.2)))

/-- Modelled from the spec: exactly `count` records from a block's
decompressed bytes; a truncated record aborts the whole block. -/
def decodeRecords (fuel : Nat) (fields : List (List Nat × AvroSchema)) :
    Nat → List Nat → Option (List (List LogicalValue) × List Nat)
  | 0, input => some ([], input)
  | k + 1, input =>
      (decodeRecord fuel fields input).bind (fun p =>
        (decodeRecords fuel fields k p.2).map (fun q => (p.1 :: q.1, q.2)))

/-- Modelled from the spec (chunk assembly): the decoded records,
transposed into one column per resolved field. -/
def columnsOf : List (List Nat × AvroSchema) → List (List LogicalValue) →
    Option (List ColumnModel)
  | [], _ => some []
  | (_, t) :: fields, records =>
      match resolveAvroType t with
      | none => none
      | some (dt, _) =>
          (seqOpt (records.map List.head?)).bind (fun vals =>
            (columnsOf fields (records.map List.tail)).map
              (fun cols => ColumnModel.mk dt vals :: cols))

/-! ### The embedded schema text (modelled from the spec, §4.2/§6: "embedded
schema text (JSON or equivalent)"): an injective tagged byte rendering of
the external schema, with length-prefixed names and symbol lists. -/

/-- A length-prefixed byte string. -/
def encodeLenBytes (bs : List Nat) : List Nat :=
  encodeLong (bs.length : Int) ++ bs

/-- Serialization of one external type (the "equivalent" schema text). -/
def serializeAvroType : AvroSchema → List Nat
  | AvroSchema.along => [0]
  | AvroSchema.aint => [1]
  | AvroSchema.adouble => [2]
  | AvroSchema.aboolean => [3]
  | AvroSchema.abytes => [4]
  | AvroSchema.astring => [5]
  | AvroSchema.dateInt => [6]
  | AvroSchema.nullUnion t => 7 :: serializeAvroType t
  | AvroSchema.array n t => 8 :: (encodeLenBytes n ++ serializeAvroType t)
  | AvroSchema.enumType symbols =>
      9 :: (encodeLong (symbols.length : Int) ++
        (symbols.map encodeLenBytes).join)

/-- Serialization of the record schema's named field list. -/
def serializeSchemaFields (fields : List (List Nat × AvroSchema)) : List Nat :=
  encodeLong (fields.length : Int) ++
    (fields.map (fun p => encodeLenBytes p.1 ++ serializeAvroType p.2)).join

/-- Reads one length-prefixed byte string. -/
def readLenBytes (input : List Nat) : Option (List Nat × List Nat) :=
  (readLong input).bind (fun p =>
    if p.1 < 0 then none else readN p.1.toNat p.2)

/-- Reads `k` length-prefixed byte strings. -/
def readLenBytesList : Nat → List Nat → Option (List (List Nat) × List Nat)
  | 0, input => some ([], input)
  | k + 1, input =>
      (readLenBytes input).bind (fun p =>
        (readLenBytesList k p.2).map (fun q => (p.1 :: q.1, q.2)))

/-- Parser of `serializeAvroType` (the schema-text reader of the metadata
parser); the fuel is structural and bounds the nesting depth. -/
def parseAvroType : Nat → List Nat → Option (AvroSchema × List Nat)
  | 0, _ => none
  | fuel + 1, input =>
      match input with
      | [] => none
      | 0 :: rest => some (AvroSchema.along, rest)
      | 1 :: rest => some (AvroSchema.aint, rest)
      | 2 :: rest => some (AvroSchema.adouble, rest)
      | 3 :: rest => some (AvroSchema.aboolean, rest)
      | 4 :: rest => some (AvroSchema.abytes, rest)
      | 5 :: rest => some (AvroSchema.astring, rest)
      | 6 :: rest => some (AvroSchema.dateInt, rest)
      | 7 :: rest =>
          (parseAvroType fuel rest).map
            (fun p => (AvroSchema.nullUnion p.1, p.2))
      | 8 :: rest =>
          (readLenBytes rest).bind (fun p =>
            (parseAvroType fuel p.2).map
              (fun q => (AvroSchema.array p.1 q.1, q.2)))
      | 9 :: rest =>
          (readLong rest).bind (fun p =>
            if p.1 < 0 then none
            else (readLenBytesList p.1.toNat p.2).map
              (fun q => (AvroSchema.enumType q.1, q.2)))
      | _ => none

/-- Parser of `serializeSchemaFields`. -/
def parseSchemaFieldsAux (fuel : Nat) :
    Nat → List Nat → Option (List (List Nat × AvroSchema) × List Nat)
  | 0, input => some ([], input)
  | k + 1, input =>
      (readLenBytes input).bind (fun p =>
        (parseAvroType fuel p.2).bind (fun q =>
          (parseSchemaFieldsAux fuel k q.2).map
            (fun r => ((p.1, q.1) :: r.1, r.2))))

/-- Parses the embedded record schema from the metadata value bytes. -/
def parseSchemaFields (fuel : Nat) (input : List Nat) :
    Option (List (List Nat × AvroSchema) × List Nat) :=
  (readLong input).bind (fun p =>
    if p.1 < 0 then none else parseSchemaFieldsAux fuel p.1.toNat p.2)

/-! ### Container metadata, block stream, decompressor and reader
(modelled from the spec, §4.2, §4.4, §4.5, §6). -/

/-- The block codec selected by the file metadata. -/
inductive Codec where
  | nullCodec
  | deflate
  | snappy

/-- Modelled from the spec: the per-block decompressor; the identity codec
passes the block body through unchanged.  The deflate/snappy algorithms are
external collaborators and are not modelled, so only identity-codec streams
are decoded here. -/
def decompress (c : Codec) (body : List Nat) : Option (List Nat) :=
  match c with
  | Codec.nullCodec => some body
  | Codec.deflate => none
  | Codec.snappy => none

/-- Modelled from the spec: codec resolution from the metadata map: absent
means identity, a known name selects its codec, an unknown name fails. -/
def parseCodec : Option (List Nat) → Option Codec
  | none => some Codec.nullCodec
  | some name =>
      if name = [110, 117, 108, 108] then some Codec.nullCodec
      else if name = [100, 101, 102, 108, 97, 116, 101] then some Codec.deflate
      else if name = [115, 110, 97, 112, 112, 121] then some Codec.snappy
      else none

/-- First value bound to `key` in an association list of byte strings. -/
def lookupKey (key : List Nat) :
    List (List Nat × List Nat) → Option (List Nat)
  | [] => none
  | (k, v) :: rest => if k = key then some v else lookupKey key rest

/-- Modelled from the spec: the metadata key/value map: zero-terminated
counted groups of (length-prefixed key, length-prefixed value) pairs. -/
def readMapBlocks : Nat → List Nat → Option (List (List Nat × List Nat) × List Nat)
  | 0, _ => none
  | fuel + 1, input =>
      (readLong input).bind (fun p =>
        if p.1 = 0 then some ([], p.2)
        else if p.1 < 0 then none
        else
          (readMapEntries fuel p.1.toNat p.2).bind (fun q =>
            (readMapBlocks fuel q.2).map (fun r => (q.1 ++ r.1, r.2))))
where
  readMapEntries : Nat → Nat → List Nat →
      Option (List (List Nat × List Nat) × List Nat)
    | _, 0, input => some ([], input)
    | 0, _ + 1, _ => none
    | fuel + 1, k + 1, input =>
        (readLenBytes input).bind (fun p =>
          (readLenBytes p.2).bind (fun q =>
            (readMapEntries fuel k q.2).map
              (fun r => ((p.1, q.1) :: r.1, r.2))))

/-- The metadata established once per stream: the external schema's fields,
the resolved internal schema, the codec, and the 16-byte sync marker. -/
structure FileMetadata where
  avroFields : List (List Nat × AvroSchema)
  schema : List Field
  codec : Codec
  marker : List Nat

/-- Modelled from the spec: `read_metadata`: the 4 magic bytes `Obj\x01`,
the metadata map (whose `avro.schema` entry is parsed and resolved, and
whose `avro.codec` entry selects the codec, absent defaulting to identity),
then the 16-byte sync marker. -/
def read_metadata (fuel : Nat) (input : List Nat) :
    Option (FileMetadata × List Nat) :=
  (readN 4 input).bind (fun magic =>
    if magic.1 = [79, 98, 106, 1] then
      (readMapBlocks fuel magic.2).bind (fun entries =>
        (lookupKey [97, 118, 114, 111, 46, 115, 99, 104, 101, 109, 97]
            entries.1).bind (fun schemaBytes =>
          (parseSchemaFields fuel schemaBytes).bind (fun fields =>
            (resolveFields fields.1).bind (fun schema =>
              (parseCodec (lookupKey
                  [97, 118, 114, 111, 46, 99, 111, 100, 101, 99]
                  entries.1)).bind (fun codec =>
                (readN 16 entries.2).map (fun marker =>
                  (FileMetadata.mk fields.1 schema codec marker.1,
                    marker.2)))))))
    else none)

/-- Modelled from the spec: one element of the block stream iterator: the
record count, the compressed byte length, exactly that many body bytes, and
the trailing sync marker compared byte-for-byte against the file marker. -/
def readBlock (marker : List Nat) (input : List Nat) :
    Option ((Nat × List Nat) × List Nat) :=
  (readLong input).bind (fun count =>
    if count.1 < 0 then none
    else (readLong count.2).bind (fun size =>
      if size.1 < 0 then none
      else (readN size.1.toNat size.2).bind (fun body =>
        (readN 16 body.2).bind (fun m =>
          if m.1 = marker then some ((count.1.toNat, body.1), m.2)
          else none))))

/-- Modelled from the spec: one `next()` of the reader: pull a block,
decompress it, decode exactly the declared record count, and assemble the
chunk. -/
def readerNext (fuel : Nat) (meta : FileMetadata) (input : List Nat) :
    Option (List ColumnModel × List Nat) :=
  (readBlock meta.marker input).bind (fun block =>
    (decompress meta.codec block.1.2).bind (fun raw =>
      (decodeRecords fuel meta.avroFields block.1.1 raw).bind (fun records =>
        (columnsOf meta.avroFields records.1).map (fun cols =>
          (cols, block.2)))))

/-! ### The writer (modelled from the spec, §6: the external container
writer is an external collaborator; it emits the same binary format the
decoder reads). -/

/-- Position of a symbol in the enum's ordered symbol list. -/
def symbolIndex (s : List Nat) : List (List Nat) → Option Nat
  | [] => none
  | x :: rest =>
      if x = s then some 0 else (symbolIndex s rest).map (fun i => i + 1)

/-- The concatenated renderings of one array block's items. -/
def encodeItems (enc : LogicalValue → Option (List Nat)) :
    List LogicalValue → Option (List Nat)
  | [] => some []
  | v :: vs =>
      (enc v).bind (fun b => (encodeItems enc vs).map (fun r => b ++ r))

/-- Modelled from the spec: the binary rendering of one value of external
type `sch`, the exact inverse rules of `decodeValue`. -/
def encodeValue : Nat → AvroSchema → LogicalValue → Option (List Nat)
  | 0, _, _ => none
  | _ + 1, AvroSchema.along, LogicalValue.llong n => some (encodeLong n)
  | _ + 1, AvroSchema.aint, LogicalValue.lint n => some (encodeLong n)
  | _ + 1, AvroSchema.dateInt, LogicalValue.lint n => some (encodeLong n)
  | _ + 1, AvroSchema.adouble, LogicalValue.ldouble bs =>
      if bs.length = 8 then some bs else none
  | _ + 1, AvroSchema.aboolean, LogicalValue.lbool b =>
      some [if b then 1 else 0]
  | _ + 1, AvroSchema.abytes, LogicalValue.lbytes bs =>
      some (encodeLenBytes bs)
  | _ + 1, AvroSchema.astring, LogicalValue.lbytes bs =>
      some (encodeLenBytes bs)
  | _ + 1, AvroSchema.nullUnion _, LogicalValue.lnull => some (encodeLong 0)
  | fuel + 1, AvroSchema.nullUnion t, v =>
      (encodeValue fuel t v).map (fun b => encodeLong 1 ++ b)
  | fuel + 1, AvroSchema.array _ t, LogicalValue.llist items =>
      if items.isEmpty then some (encodeLong 0)
      else
        (encodeItems (encodeValue fuel t) items).map (fun b =>
          encodeLong (items.length : Int) ++ b ++ encodeLong 0)
  | _ + 1, AvroSchema.enumType symbols, LogicalValue.lbytes s =>
      (symbolIndex s symbols).map (fun i => encodeLong (i : Int))
  | _ + 1, _, _ => none

/-- One record, field by field in schema order. -/
def encodeRecord (fuel : Nat) :
    List (List Nat × AvroSchema) → List LogicalValue → Option (List Nat)
  | [], [] => some []
  | (_, t) :: fields, v :: vs =>
      (encodeValue fuel t v).bind (fun b =>
        (encodeRecord fuel fields vs).map (fun r => b ++ r))
  | _, _ => none

/-- Modelled from the spec: a whole single-block container stream: magic,
metadata map with the embedded schema text and the identity codec name,
sync marker, then one block `(count, byte_len, body, marker)`. -/
def writeContainer (fuel : Nat) (fields : List (List Nat × AvroSchema))
    (records : List (List LogicalValue)) (marker : List Nat) :
    Option (List Nat) :=
  (seqOpt (records.map (encodeRecord fuel fields))).map (fun encoded =>
    let body := encoded.join
    [79, 98, 106, 1] ++
      encodeLong 2 ++
      (encodeLenBytes [97, 118, 114, 111, 46, 115, 99, 104, 101, 109, 97] ++
        encodeLenBytes (serializeSchemaFields fields)) ++
      (encodeLenBytes [97, 118, 114, 111, 46, 99, 111, 100, 101, 99] ++
        encodeLenBytes [110, 117, 108, 108]) ++
      encodeLong 0 ++
      marker ++
      encodeLong (records.length : Int) ++
      encodeLong (body.length : Int) ++
      body ++
      marker)

/-! ### The concrete round-trip instance: the ten-field schema and the two
records of the design document's round-trip property. -/

/-- The external schema `{a:int64, b:string, c:int32, date:date32, d:bytes,
e:double, f:boolean, g:nullable-string, h:list<nullable-int32>,
enum:4-symbol-enum}` (field names as byte strings). -/
def testAvroFields : List (List Nat × AvroSchema) :=
  [([97], AvroSchema.along),
   ([98], AvroSchema.astring),
   ([99], AvroSchema.aint),
   ([100, 97, 116, 101], AvroSchema.dateInt),
   ([100], AvroSchema.abytes),
   ([101], AvroSchema.adouble),
   ([102], AvroSchema.aboolean),
   ([103], AvroSchema.nullUnion AvroSchema.astring),
   ([104], AvroSchema.array [105, 116, 101, 109]
      (AvroSchema.nullUnion AvroSchema.aint)),
   ([101, 110, 117, 109], AvroSchema.enumType
      [[83, 80, 65, 68, 69, 83], [72, 69, 65, 82, 84, 83],
       [68, 73, 65, 77, 79, 78, 68, 83], [67, 76, 85, 66, 83]])]

/-- The two written records: `(27, "foo", 1, 1, b"foo", 1.0, true,
Some "foo", [Some 1, None, Some 3], HEARTS)` and `(47, "bar", 1, 2, b"bar",
2.0, false, None, [Some 1, None, Some 3], SPADES)`; the doubles stand as
their 8-byte little-endian patterns. -/
def testRecords : List (List LogicalValue) :=
  [[LogicalValue.llong 27,
    LogicalValue.lbytes [102, 111, 111],
    LogicalValue.lint 1,
    LogicalValue.lint 1,
    LogicalValue.lbytes [102, 111, 111],
    LogicalValue.ldouble [0, 0, 0, 0, 0, 0, 240, 63],
    LogicalValue.lbool true,
    LogicalValue.lbytes [102, 111, 111],
    LogicalValue.llist [LogicalValue.lint 1, LogicalValue.lnull,
      LogicalValue.lint 3],
    LogicalValue.lbytes [72, 69, 65, 82, 84, 83]],
   [LogicalValue.llong 47,
    LogicalValue.lbytes [98, 97, 114],
    LogicalValue.lint 1,
    LogicalValue.lint 2,
    LogicalValue.lbytes [98, 97, 114],
    LogicalValue.ldouble [0, 0, 0, 0, 0, 0, 0, 64],
    LogicalValue.lbool false,
    LogicalValue.lnull,
    LogicalValue.llist [LogicalValue.lint 1, LogicalValue.lnull,
      LogicalValue.lint 3],
    LogicalValue.lbytes [83, 80, 65, 68, 69, 83]]]

/-- The 16-byte sync marker of the written stream. -/
def testMarker : List Nat :=
  [0, 1, 2, 3, 4, 5, 6, 7, 8, 9, 10, 11, 12, 13, 14, 15]

/-- The expected decoded chunk: each column's resolved data type with the
original values as logical contents. -/
def expectedChunk : List ColumnModel :=
  [ColumnModel.mk DataType.int64
     [LogicalValue.llong 27, LogicalValue.llong 47],
   ColumnModel.mk DataType.utf8
     [LogicalValue.lbytes [102, 111, 111], LogicalValue.lbytes [98, 97, 114]],
   ColumnModel.mk DataType.int32
     [LogicalValue.lint 1, LogicalValue.lint 1],
   ColumnModel.mk DataType.date32
     [LogicalValue.lint 1, LogicalValue.lint 2],
   ColumnModel.mk DataType.binary
     [LogicalValue.lbytes [102, 111, 111], LogicalValue.lbytes [98, 97, 114]],
   ColumnModel.mk DataType.float64
     [LogicalValue.ldouble [0, 0, 0, 0, 0, 0, 240, 63],
      LogicalValue.ldouble [0, 0, 0, 0, 0, 0, 0, 64]],
   ColumnModel.mk DataType.boolean
     [LogicalValue.lbool true, LogicalValue.lbool false],
   ColumnModel.mk DataType.utf8
     [LogicalValue.lbytes [102, 111, 111], LogicalValue.lnull],
   ColumnModel.mk (DataType.list [105, 116, 101, 109] DataType.int32 true)
     [LogicalValue.llist [LogicalValue.lint 1, LogicalValue.lnull,
        LogicalValue.lint 3],
      LogicalValue.llist [LogicalValue.lint 1, LogicalValue.lnull,
        LogicalValue.lint 3]],
   ColumnModel.mk (DataType.dictionary DataType.int32 DataType.utf8 false)
     [LogicalValue.lbytes [72, 69, 65, 82, 84, 83],
      LogicalValue.lbytes [83, 80, 65, 68, 69, 83]]]

/-- The expected resolved internal schema: names, types and nullability. -/
def expectedSchema : List Field :=
  [Field.mk [97] DataType.int64 false,
   Field.mk [98] DataType.utf8 false,
   Field.mk [99] DataType.int32 false,
   Field.mk [100, 97, 116, 101] DataType.date32 false,
   Field.mk [100] DataType.binary false,
   Field.mk [101] DataType.float64 false,
   Field.mk [102] DataType.boolean false,
   Field.mk [103] DataType.utf8 true,
   Field.mk [104] (DataType.list [105, 116, 101, 109] DataType.int32 true)
     false,
   Field.mk [101, 110, 117, 109]
     (DataType.dictionary DataType.int32 DataType.utf8 false) false]

/-- The full round trip: write the container, read its metadata, pull one
chunk through the block iterator, decompressor and reader. -/
def avroRoundTrip : Option (List ColumnModel × List Field) :=
  (writeContainer 100 testAvroFields testRecords testMarker).bind
    (fun bytes =>
      (read_metadata 100 bytes).bind (fun meta =>
        (readerNext 100 meta.1 meta.2).map (fun chunk =>
          (chunk.1, meta.1.schema))))

end Arrow2

namespace Arrow2

/-! Lemmas about the window predicates of `try_check_offsets`. -/

theorem adj_le_of_not_hasDecreasing (l : List Nat)
    (h : hasDecreasing l = false) :
    ∀ (i : Nat) (hi : i + 1 < l.length),
      l.get ⟨i, Nat.lt_of_succ_lt hi⟩ ≤ l.get ⟨i + 1, hi⟩ := by
  induction l with
  | nil => intro i hi; simp at hi
  | cons a t ih =>
    cases t with
    | nil => intro i hi; simp at hi
    | cons b rest =>
      simp only [hasDecreasing, Bool.or_eq_false_iff,
        decide_eq_false_iff_not, Nat.not_lt] at h
      intro i hi
      cases i with
      | zero => simpa using h.1
      | succ j =>
        have := ih (by simpa [hasDecreasing] using h.2) j (by
          simpa using Nat.lt_of_succ_lt_succ hi)
        simpa using this

theorem le_getLast_of_not_hasDecreasing (l : List Nat)
    (h : hasDecreasing l = false) (hne : l ≠ []) :
    ∀ (i : Nat) (hi : i < l.length), l.get ⟨i, hi⟩ ≤ l.getLast hne := by
  induction l with
  | nil => exact absurd rfl hne
  | cons a t ih =>
    cases t with
    | nil =>
      intro i hi
      cases i with
      | zero => simp [List.getLast]
      | succ j => simp at hi
    | cons b rest =>
      simp only [hasDecreasing, Bool.or_eq_false_iff,
        decide_eq_false_iff_not, Nat.not_lt] at h
      have hrec : hasDecreasing (b :: rest) = false := by
        simpa [hasDecreasing] using h.2
      intro i hi
      rw [List.getLast_cons (by simp : b :: rest ≠ [])]
      cases i with
      | zero =>
        calc a ≤ b := h.1
        _ = (b :: rest).get ⟨0, by simp⟩ := rfl
        _ ≤ (b :: rest).getLast (by simp) :=
            ih hrec (by simp) 0 (by simp)
      | succ j =>
        have := ih hrec (by simp) j (by simpa using Nat.lt_of_succ_lt_succ hi)
        simpa using this

theorem hasDecreasing_of_adj (l : List Nat) :
    ∀ (i : Nat) (hi : i + 1 < l.length),
      l.get ⟨i + 1, hi⟩ < l.get ⟨i, Nat.lt_of_succ_lt hi⟩ →
      hasDecreasing l = true := by
  induction l with
  | nil => intro i hi; simp at hi
  | cons a t ih =>
    cases t with
    | nil => intro i hi; simp at hi
    | cons b rest =>
      intro i hi hdec
      simp only [hasDecreasing, Bool.or_eq_true, decide_eq_true_eq]
      cases i with
      | zero => left; simpa using hdec
      | succ j =>
        right
        exact ih j (by simpa using Nat.lt_of_succ_lt_succ hi)
          (by simpa using hdec)

theorem exists_adj_of_hasDecreasing (l : List Nat)
    (h : hasDecreasing l = true) :
    ∃ (i : Nat) (hi : i + 1 < l.length),
      l.get ⟨i + 1, hi⟩ < l.get ⟨i, Nat.lt_of_succ_lt hi⟩ := by
  induction l with
  | nil => simp [hasDecreasing] at h
  | cons a t ih =>
    cases t with
    | nil => simp [hasDecreasing] at h
    | cons b rest =>
      simp only [hasDecreasing, Bool.or_eq_true, decide_eq_true_eq] at h
      rcases h with h | h
      · exact ⟨0, by simp, by simpa using h⟩
      · obtain ⟨j, hj, hdec⟩ := ih (by simpa [hasDecreasing] using h)
        exact ⟨j + 1, by simpa using Nat.succ_lt_succ hj, by simpa using hdec⟩

/-! Lemmas about ASCII and UTF-8 validity. -/

theorem validUtf8_of_isAscii (l : List Nat) (h : isAscii l = true) :
    validUtf8 l = true := by
  unfold validUtf8
  induction l with
  | nil => rfl
  | cons b rest ih =>
    rw [show isAscii (b :: rest) = (decide (b < 128) && isAscii rest) from rfl,
      Bool.and_eq_true, decide_eq_true_eq] at h
    rw [validUtf8Aux, show leadByte b = some (0, 0, 0) from by
      unfold leadByte; rw [if_pos (by omega)]]
    exact ih h.2

theorem isAscii_drop_take (values : List Nat) (h : isAscii values = true)
    (s n : Nat) : isAscii ((values.drop s).take n) = true := by
  simp only [isAscii, List.all_eq_true, decide_eq_true_eq] at h ⊢
  intro b hb
  exact h b (List.drop_subset s values (List.take_subset n _ hb))

/-! Lemmas about the window loop of `try_check_offsets_and_utf8`. -/

theorem windowsLoop_error_of_windowCheck (values : List Nat)
    (v : List Nat → Bool) :
    ∀ (l : List Nat) (i : Nat) (hi : i + 1 < l.length),
      isError (windowCheck values v (l.get ⟨i, Nat.lt_of_succ_lt hi⟩)
        (l.get ⟨i + 1, hi⟩)) = true →
      isError (windowsLoop values v l) = true := by
  intro l
  induction l with
  | nil => intro i hi; simp at hi
  | cons a t ih =>
    cases t with
    | nil => intro i hi; simp at hi
    | cons b rest =>
      intro i hi hwin
      rw [windowsLoop]
      cases hchk : windowCheck values v a b with
      | error e => simp [isError]
      | ok u =>
        cases u
        cases i with
        | zero => simp only [List.get] at hwin; rw [hchk] at hwin; simp [isError] at hwin
        | succ j =>
          exact ih j (by simpa using Nat.lt_of_succ_lt_succ hi)
            (by simpa using hwin)

theorem windowCheck_error_of_bound (values : List Nat) (v : List Nat → Bool)
    (o1 o2 : Nat) (h : values.length < toUsize o2) :
    isError (windowCheck values v o1 o2) = true := by
  rw [windowCheck]
  by_cases h1 : toUsize o2 < toUsize o1
  · simp [h1, isError]
  · simp [h1, h, isError]

theorem getLast_eq_get_sub_two (l : List Nat) (h2 : 2 ≤ l.length)
    (hne : l ≠ []) (hi : l.length - 2 + 1 < l.length) :
    l.getLast hne = l.get ⟨l.length - 2 + 1, hi⟩ := by
  rw [List.getLast_eq_get]
  exact congrArg l.get (Fin.ext (by simp; omega))

/-! Theorems settling the claims about the invariant checker. -/

/-- C1: whenever `try_check_offsets(offsets, values_len)` returns `Ok`,
every offset in the slice (not only the last) is at most `values_len`, and
every adjacent pair satisfies `start <= end`, so slicing the values buffer
at any adjacent pair stays in range and never reverses. -/
theorem try_check_offsets_ok_all_in_range (offsets : List Nat)
    (values_len : Nat)
    (h : try_check_offsets offsets values_len = Except.ok ()) :
    (∀ (i : Nat) (hi : i < offsets.length),
      toUsize (offsets.get ⟨i, hi⟩) ≤ values_len) ∧
    (∀ (i : Nat) (hi : i + 1 < offsets.length),
      offsets.get ⟨i, Nat.lt_of_succ_lt hi⟩ ≤ offsets.get ⟨i + 1, hi⟩) := by
  rw [try_check_offsets] at h
  by_cases hdec : hasDecreasing offsets = true
  · simp [hdec] at h
  · rw [Bool.not_eq_true] at hdec
    rw [if_neg (by simp [hdec])] at h
    by_cases hlast : lastExceeds offsets values_len = true
    · simp [hlast] at h
    · rw [Bool.not_eq_true] at hlast
      refine ⟨?_, adj_le_of_not_hasDecreasing offsets hdec⟩
      intro i hi
      have hne : offsets ≠ [] := by
        intro hnil; rw [hnil] at hi; simp at hi
      have hlast' : toUsize (offsets.getLast hne) ≤ values_len := by
        rw [lastExceeds, List.getLast?_eq_getLast offsets hne] at hlast
        simpa using hlast
      exact le_trans (le_getLast_of_not_hasDecreasing offsets hdec hne i hi)
        hlast'

/-- Witness for C1 at `offsets = [0, 2, 5]`, `values_len = 5`. -/
theorem try_check_offsets_ok_all_in_range_witness :
    (∀ (i : Nat) (hi : i < ([0, 2, 5] : List Nat).length),
      toUsize (([0, 2, 5] : List Nat).get ⟨i, hi⟩) ≤ 5) ∧
    (∀ (i : Nat) (hi : i + 1 < ([0, 2, 5] : List Nat).length),
      ([0, 2, 5] : List Nat).get ⟨i, Nat.lt_of_succ_lt hi⟩ ≤
        ([0, 2, 5] : List Nat).get ⟨i + 1, hi⟩) :=
  try_check_offsets_ok_all_in_range [0, 2, 5] 5 rfl

/-- C2: an offsets slice with a decreasing adjacent pair is rejected by
`try_check_offsets` for every `values_len`; an offsets slice whose last
element exceeds `values_len` is rejected as well. -/
theorem try_check_offsets_error_conditions (offsets : List Nat) :
    (∀ (i : Nat) (hi : i + 1 < offsets.length),
      offsets.get ⟨i + 1, hi⟩ < offsets.get ⟨i, Nat.lt_of_succ_lt hi⟩ →
      ∀ values_len : Nat,
        isError (try_check_offsets offsets values_len) = true) ∧
    (∀ last : Nat, offsets.getLast? = some last →
      ∀ values_len : Nat, values_len < toUsize last →
        isError (try_check_offsets offsets values_len) = true) := by
  constructor
  · intro i hi hdec values_len
    rw [try_check_offsets, if_pos (hasDecreasing_of_adj offsets i hi hdec)]
    rfl
  · intro last hlast values_len hexceeds
    rw [try_check_offsets]
    by_cases hdec : hasDecreasing offsets = true
    · rw [if_pos hdec]; rfl
    · rw [Bool.not_eq_true] at hdec
      rw [if_neg (by simp [hdec]),
        if_pos (by rw [lastExceeds, hlast]; simpa using hexceeds)]
      rfl

/-- Witness for C2: the decreasing pair `[3, 1]` with `values_len = 10`,
and the exceeding last offset of `[0, 5]` with `values_len = 3`. -/
theorem try_check_offsets_error_conditions_witness :
    isError (try_check_offsets [3, 1] 10) = true ∧
    isError (try_check_offsets [0, 5] 3) = true :=
  ⟨(try_check_offsets_error_conditions [3, 1]).1 0 (by decide) (by decide) 10,
   (try_check_offsets_error_conditions [0, 5]).2 5 rfl 3 (by decide)⟩

/-- C6: `check_offsets_minimal` on a non-empty offsets slice (its last
element named via `getLast?`) succeeds, returning `offsets.len() - 1`, when
the last offset equals `values_len` (in particular for every monotonically
increasing slice), fails exactly when the last offset differs from
`values_len`, and requires a non-empty offsets slice. -/
theorem check_offsets_minimal_spec (offsets : List Nat) (values_len : Nat)
    (last : Nat) (hlast : offsets.getLast? = some last) :
    (hasDecreasing offsets = false → toUsize last = values_len →
      check_offsets_minimal offsets values_len = some (offsets.length - 1)) ∧
    (check_offsets_minimal offsets values_len = none ↔
      toUsize last ≠ values_len) ∧
    check_offsets_minimal [] values_len = none := by
  refine ⟨?_, ?_, rfl⟩
  · intro _ heq
    rw [check_offsets_minimal, hlast]
    show (if values_len = toUsize last then some (offsets.length - 1)
      else none) = some (offsets.length - 1)
    rw [if_pos heq.symm]
  · rw [check_offsets_minimal, hlast]
    show (if values_len = toUsize last then some (offsets.length - 1)
      else none) = none ↔ toUsize last ≠ values_len
    by_cases heq : values_len = toUsize last
    · simp [heq]
    · simp [heq]; omega

/-- Witness for C6 at `offsets = [0, 2, 5]`, `values_len = 5`. -/
theorem check_offsets_minimal_spec_witness :
    (hasDecreasing [0, 2, 5] = false → toUsize 5 = 5 →
      check_offsets_minimal [0, 2, 5] 5 =
        some (([0, 2, 5] : List Nat).length - 1)) ∧
    (check_offsets_minimal [0, 2, 5] 5 = none ↔ toUsize 5 ≠ 5) ∧
    check_offsets_minimal [] 5 = none :=
  check_offsets_minimal_spec [0, 2, 5] 5 5 rfl

/-- C10: `check_offsets_minimal` inspects only the last offset: on any
non-empty offsets slice whose last element equals `values_len` it returns
`offsets.len() - 1` without failing, monotonicity not being checked. -/
theorem check_offsets_minimal_ignores_monotonicity (offsets : List Nat)
    (values_len : Nat) (last : Nat) (hlast : offsets.getLast? = some last)
    (heq : toUsize last = values_len) :
    check_offsets_minimal offsets values_len = some (offsets.length - 1) := by
  rw [check_offsets_minimal, hlast]
  show (if values_len = toUsize last then some (offsets.length - 1)
    else none) = some (offsets.length - 1)
  rw [if_pos heq.symm]

/-- Witness for C10 at the non-monotone slice `[5, 2, 3]` with
`values_len = 3`: the decreasing pair `(5, 2)` is not inspected. -/
theorem check_offsets_minimal_ignores_monotonicity_witness :
    hasDecreasing [5, 2, 3] = true ∧
    check_offsets_minimal [5, 2, 3] 3 = some 2 :=
  ⟨by decide, check_offsets_minimal_ignores_monotonicity [5, 2, 3] 3 3 rfl rfl⟩

/-- C7: the panicking entry points panic exactly when the `Result`-returning
entry points over the same inputs return an error: `check_offsets` versus
`try_check_offsets`, and `check_offsets_and_utf8` versus
`try_check_offsets_and_utf8`. -/
theorem panicking_iff_try_error (offsets : List Nat) (values_len : Nat)
    (values : List Nat) :
    (check_offsets offsets values_len = none ↔
      ∃ e, try_check_offsets offsets values_len = Except.error e) ∧
    (check_offsets_and_utf8 offsets values = none ↔
      ∃ e, try_check_offsets_and_utf8 offsets values = Except.error e) := by
  constructor
  · rw [check_offsets]
    cases h : try_check_offsets offsets values_len with
    | ok u => cases u; simp [Except.toOption]
    | error e => simp [Except.toOption]
  · rw [check_offsets_and_utf8]
    cases h : try_check_offsets_and_utf8 offsets values with
    | ok u => cases u; simp [Except.toOption]
    | error e => simp [Except.toOption]

/-- Counterexample to C3 as stated, at `offsets = [5]`, `values = [0x80]`:
`try_check_offsets` rejects (the single offset `5` exceeds
`values.len() = 1`) while `try_check_offsets_and_utf8` accepts — a
one-element offsets slice has no adjacent pair, so on a non-ASCII values
buffer the window loop checks nothing, the last-offset bound included. -/
theorem utf8_check_accepts_offsets_check_reject :
    isError (try_check_offsets [5] (List.length ([128] : List Nat))) = true ∧
    isError (try_check_offsets_and_utf8 [5] [128]) = false :=
  ⟨rfl, rfl⟩

/-- C3 (amended): for every offsets slice with at least two elements (at
least one adjacent pair), whenever `try_check_offsets(offsets, values.len())`
returns an error, `try_check_offsets_and_utf8(offsets, values)` also returns
an error. -/
theorem try_check_offsets_and_utf8_error_of_offsets_error (offsets : List Nat)
    (values : List Nat) (h2 : 2 ≤ offsets.length)
    (herr : isError (try_check_offsets offsets values.length) = true) :
    isError (try_check_offsets_and_utf8 offsets values) = true := by
  rw [try_check_offsets_and_utf8]
  by_cases hA : isAscii values = true
  · rw [if_pos hA]; exact herr
  · rw [if_neg hA]
    rw [try_check_offsets] at herr
    by_cases hdec : hasDecreasing offsets = true
    · obtain ⟨i, hi, hlt⟩ := exists_adj_of_hasDecreasing offsets hdec
      apply windowsLoop_error_of_windowCheck values validUtf8 offsets i hi
      rw [windowCheck, if_pos (show toUsize (offsets.get ⟨i + 1, hi⟩) <
        toUsize (offsets.get ⟨i, Nat.lt_of_succ_lt hi⟩) from hlt)]
      rfl
    · rw [Bool.not_eq_true] at hdec
      rw [if_neg (by simp [hdec])] at herr
      by_cases hle : lastExceeds offsets values.length = true
      · have hne : offsets ≠ [] := by
          intro h; rw [h] at h2; simp at h2
        rw [lastExceeds, List.getLast?_eq_getLast offsets hne] at hle
        have hexc : values.length < toUsize (offsets.getLast hne) := by
          simpa using hle
        have hi : offsets.length - 2 + 1 < offsets.length := by omega
        apply windowsLoop_error_of_windowCheck values validUtf8 offsets
          (offsets.length - 2) hi
        apply windowCheck_error_of_bound
        rw [← getLast_eq_get_sub_two offsets h2 hne hi]
        exact hexc
      · rw [if_neg hle] at herr
        simp [isError] at herr

/-- Witness for the amended C3 at `offsets = [0, 5]`,
`values = [0xC8]` (non-ASCII, length 1 < 5). -/
theorem try_check_offsets_and_utf8_error_of_offsets_error_witness :
    isError (try_check_offsets_and_utf8 [0, 5] [200]) = true :=
  try_check_offsets_and_utf8_error_of_offsets_error [0, 5] [200]
    (by decide) rfl

/-- C4: on an all-ASCII values buffer, `try_check_offsets_and_utf8` succeeds
if and only if `try_check_offsets` over `values.len()` succeeds: the
per-slice UTF-8 check is a no-op on pure-ASCII values. -/
theorem ascii_utf8_check_iff_offsets_check (offsets : List Nat)
    (values : List Nat) (h : isAscii values = true) :
    try_check_offsets_and_utf8 offsets values = Except.ok () ↔
      try_check_offsets offsets values.length = Except.ok () := by
  rw [try_check_offsets_and_utf8, if_pos h]

/-- Witness for C4 at `offsets = [0, 1, 2]`, `values = "ab"`. -/
theorem ascii_utf8_check_iff_offsets_check_witness :
    isAscii [97, 98] = true ∧
    (try_check_offsets_and_utf8 [0, 1, 2] [97, 98] = Except.ok () ↔
      try_check_offsets [0, 1, 2] (List.length ([97, 98] : List Nat)) =
        Except.ok ()) :=
  ⟨rfl, ascii_utf8_check_iff_offsets_check [0, 1, 2] [97, 98] rfl⟩

/-- C5: if some adjacent offset pair delimits a slice of the values buffer
that is not valid UTF-8, `try_check_offsets_and_utf8` returns an error,
regardless of all other slices being valid. -/
theorem try_check_offsets_and_utf8_error_of_invalid_slice (offsets : List Nat)
    (values : List Nat) (i : Nat) (hi : i + 1 < offsets.length)
    (hmono : toUsize (offsets.get ⟨i, Nat.lt_of_succ_lt hi⟩) ≤
      toUsize (offsets.get ⟨i + 1, hi⟩))
    (hbound : toUsize (offsets.get ⟨i + 1, hi⟩) ≤ values.length)
    (hbad : validUtf8
      ((values.drop (toUsize (offsets.get ⟨i, Nat.lt_of_succ_lt hi⟩))).take
        (toUsize (offsets.get ⟨i + 1, hi⟩) -
          toUsize (offsets.get ⟨i, Nat.lt_of_succ_lt hi⟩))) = false) :
    isError (try_check_offsets_and_utf8 offsets values) = true := by
  have hsliceNA : isAscii
      ((values.drop (toUsize (offsets.get ⟨i, Nat.lt_of_succ_lt hi⟩))).take
        (toUsize (offsets.get ⟨i + 1, hi⟩) -
          toUsize (offsets.get ⟨i, Nat.lt_of_succ_lt hi⟩))) = false := by
    by_contra hna
    rw [Bool.not_eq_false] at hna
    rw [validUtf8_of_isAscii _ hna] at hbad
    simp at hbad
  have hA : isAscii values = false := by
    by_contra h
    rw [Bool.not_eq_false] at h
    rw [isAscii_drop_take values h _ _] at hsliceNA
    simp at hsliceNA
  rw [try_check_offsets_and_utf8, if_neg (by simp [hA])]
  apply windowsLoop_error_of_windowCheck values validUtf8 offsets i hi
  rw [windowCheck, if_neg (Nat.not_lt.mpr hmono),
    if_neg (Nat.not_lt.mpr hbound)]
  simp only [hsliceNA, hbad, Bool.and_false, if_false]
  rfl

/-- Witness for C5 at `offsets = [0, 1, 2]`, `values = [0xC3, 0xA9]` (the
two-byte encoding of U+00E9 split in half by the pair `(0, 1)`). -/
theorem try_check_offsets_and_utf8_error_of_invalid_slice_witness :
    isError (try_check_offsets_and_utf8 [0, 1, 2] [195, 169]) = true :=
  try_check_offsets_and_utf8_error_of_invalid_slice [0, 1, 2] [195, 169] 0
    (by decide) (by decide) (by decide) rfl

/-- C9: every union data type reports a null count of 0 for every length,
dense or sparse, regardless of child-field nullability (structurally
non-nullable by construction), while `new_null_array` of length 10 for the
Int32, Float64, Utf8, Binary and List types reports a null count of 10. -/
theorem union_null_count_structurally_zero :
    (∀ (fields : List (List Nat × DataType × Bool)) (ids : Option (List Int))
      (mode : UnionMode) (length : Nat),
      newNullArrayNullCount (DataType.union fields ids mode) length = 0) ∧
    newNullArrayNullCount DataType.int32 10 = 10 ∧
    newNullArrayNullCount DataType.float64 10 = 10 ∧
    newNullArrayNullCount DataType.utf8 10 = 10 ∧
    newNullArrayNullCount DataType.binary 10 = 10 ∧
    newNullArrayNullCount (DataType.list [97] DataType.binary true) 10 = 10 :=
  ⟨fun _ _ _ _ => rfl, rfl, rfl, rfl, rfl, rfl⟩

/-- C8: round-trip through the container format: encoding the ten-field
schema `{a:int64, b:string, c:int32, date:date32, d:bytes, e:double,
f:boolean, g:nullable-string, h:list<nullable-int32>, enum:4-symbol-enum}`
and two records, then decoding through the metadata parser, the block
stream iterator, the decompressor and the reader, yields a chunk whose
columns equal the original values exactly and a resolved schema equal to
the expected internal schema (field names, types, nullability). -/
theorem avro_round_trip_exact :
    avroRoundTrip = some (expectedChunk, expectedSchema) := by rfl

end Arrow2
